import Mathlib

/-!
Verification of the group-chat wire protocol and server core
(`src/group_chat/` : `command.py`, `server.py`, `db.py`, `validation.py`,
`server_message.py`, `client.py`).

Modelling conventions:
* a byte is a `Nat` (only values 0–255 arise);
* a Python `str` that crosses the wire is represented by its UTF-8 byte
  sequence (`List Nat`); UTF-8 encoding is a bijection between strings and
  their encodings, so equality of byte fields coincides with equality of the
  underlying strings;
* Python `str` values handled purely in memory (validation, session table)
  are Lean `String`s; `len` on a Python `str` counts code points, matching
  `String.length`;
* a raised Python exception is `Option.none` / `Except.error`.
-/

namespace GroupChat

/-! ### Frame codec — `command.py`, class `Command` -/

def HEADER_WIDTH : Nat := 4

/-- Decimal digit bytes of `n`, most significant first: the bytes of `str(n)`
for a nonnegative Python int. -/
def decDigits (n : Nat) : List Nat :=
  if h : n < 10 then [48 + n]
  else decDigits (n / 10) ++ [48 + n % 10]
decreasing_by
  exact Nat.div_lt_self (by omega) (by omega)

/-- `f"{n:>4}"` encoded to bytes: right-justified, space-padded to width 4.
Python's format specifier pads but never truncates, so a number of five or
more digits is emitted in full. -/
def padHeader (n : Nat) : List Nat :=
  List.replicate (HEADER_WIDTH - (decDigits n).length) 32 ++ decDigits n

def isSpaceByte (b : Nat) : Bool :=
  b = 32 || b = 9 || b = 10 || b = 13 || b = 11 || b = 12

def isDigitByte (b : Nat) : Bool := 48 ≤ b && b ≤ 57

def digitsVal (l : List Nat) : Nat :=
  l.foldl (fun acc b => 10 * acc + (b - 48)) 0

/-- `int(header.decode(ENCODING))`: Python `int` strips surrounding
whitespace and then parses a run of decimal digits (the only shape the
protocol produces); `none` models the `ValueError` raise on anything else. -/
def parseHeader (l : List Nat) : Option Nat :=
  let core := (((l.dropWhile isSpaceByte).reverse.dropWhile isSpaceByte).reverse)
  if !core.isEmpty && core.all isDigitByte then some (digitsVal core) else none

/-- The header-block-then-body-block layout of `Command.get_request_payload`:
one width-4 length header per field in key order, then the field bytes in
order. -/
def encodeFields (fields : List (List Nat)) : List Nat :=
  (fields.map (fun v => padHeader v.length)).flatten ++ fields.flatten

/-- The per-key header slices `header_bytes[i*4 : i*4+4]` taken by
`Command.from_socket`. -/
def headerSlices (k : Nat) (hb : List Nat) : List (List Nat) :=
  (List.range k).map fun i => ((hb.drop (HEADER_WIDTH * i)).take HEADER_WIDTH)

/-- The per-key loop of `Command.from_socket`: parse each header slice, then
consume that many bytes from the remaining stream.  `none` models a
`ValueError` from `int()` or a read that cannot be satisfied. -/
def decodeValues : List (List Nat) → List Nat → Option (List (List Nat) × List Nat)
  | [], rest => some ([], rest)
  | h :: hs, rest => do
    let n ← parseHeader h
    if n ≤ rest.length then do
      let (vs, r) ← decodeValues hs (rest.drop n)
      some (rest.take n :: vs, r)
    else none

/-- `Command.from_socket` after the identifier byte: read `4*k` header bytes
in one block, then parse slice `i` and read that many value bytes, for each
of the `k` keys. -/
def decodeFields (k : Nat) (stream : List Nat) : Option (List (List Nat) × List Nat) :=
  if HEADER_WIDTH * k ≤ stream.length then
    decodeValues (headerSlices k (stream.take (HEADER_WIDTH * k)))
      (stream.drop (HEADER_WIDTH * k))
  else none

/-- The nine command variants of `command.py`, fields as UTF-8 byte
sequences. -/
inductive Cmd where
  | connect (version : List Nat)
  | login (user_id password : List Nat)
  | newuser (user_id password : List Nat)
  | sendall (message : List Nat)
  | senddirect (user_id message : List Nat)
  | who
  | disconnectCmd (message : List Nat)
  | printCmd (message : List Nat)
  | userid (user_id : List Nat)
deriving DecidableEq

/-- The one-byte ASCII identifier of each command class
(`C A N S D W X P U`). -/
def Cmd.idByte : Cmd → Nat
  | .connect _ => 67
  | .login _ _ => 65
  | .newuser _ _ => 78
  | .sendall _ => 83
  | .senddirect _ _ => 68
  | .who => 87
  | .disconnectCmd _ => 88
  | .printCmd _ => 80
  | .userid _ => 85

/-- The field values in declared key order. -/
def Cmd.fieldList : Cmd → List (List Nat)
  | .connect v => [v]
  | .login u p => [u, p]
  | .newuser u p => [u, p]
  | .sendall m => [m]
  | .senddirect u m => [u, m]
  | .who => []
  | .disconnectCmd m => [m]
  | .printCmd m => [m]
  | .userid u => [u]

/-- `Command.get_request_payload`. -/
def getRequestPayload (c : Cmd) : List Nat :=
  c.idByte :: encodeFields c.fieldList

/-- `len(cls.keys)` for the class registered under identifier byte `b`;
`none` when no class has that identifier. -/
def keysOf (b : Nat) : Option Nat :=
  match b with
  | 67 => some 1
  | 65 => some 2
  | 78 => some 2
  | 83 => some 1
  | 68 => some 2
  | 87 => some 0
  | 88 => some 1
  | 80 => some 1
  | 85 => some 1
  | _ => none

/-- `cls(socket, **kwargs)`: rebuild the command of identifier `b` from its
decoded field values. -/
def mkCmd (b : Nat) (fs : List (List Nat)) : Option Cmd :=
  match b, fs with
  | 67, [v] => some (.connect v)
  | 65, [u, p] => some (.login u p)
  | 78, [u, p] => some (.newuser u p)
  | 83, [m] => some (.sendall m)
  | 68, [u, m] => some (.senddirect u m)
  | 87, [] => some .who
  | 88, [m] => some (.disconnectCmd m)
  | 80, [m] => some (.printCmd m)
  | 85, [u] => some (.userid u)
  | _, _ => none

/-- Decoding one full frame: consume the identifier byte, then run
`Command.from_socket` of the class it selects. -/
def decodeCommand (payload : List Nat) : Option Cmd :=
  match payload with
  | [] => none
  | b :: rest => do
    let k ← keysOf b
    let (fs, _) ← decodeFields k rest
    mkCmd b fs

/-! ### `validation.py` — `validate_user_and_password`

A Python `str` here is a Lean `String` (`len` counts code points, matching
`String.length`).  The function's `return` line is
`good_user_id_len and good_password_len and no_spaces` where `no_spaces` is a
*list* of two booleans, so the returned Python value is either one of the
length booleans (when one of them is `False`) or the two-element list itself;
we keep that value structure, plus Python truthiness, explicitly.  The list
comprehension on the previous line indexes `item.split()[0]`, which raises
`IndexError` when `split()` is empty; `Except.error ()` models the raise. -/

def USER_ID_MIN_LEN : Nat := 3
def USER_ID_MAX_LEN : Nat := 32
def PASSWORD_MIN_LEN : Nat := 4
def PASSWORD_MAX_LEN : Nat := 8

/-- The characters `str.split()` treats as whitespace (the ASCII ones:
space, tab, newline, carriage return, vertical tab, form feed). -/
def isPyWS (c : Char) : Bool :=
  c.toNat = 32 || c.toNat = 9 || c.toNat = 10 || c.toNat = 13 ||
    c.toNat = 11 || c.toNat = 12

/-- `str.split()` with no separator: split on runs of whitespace and drop
empty pieces.  `acc` holds the current word, reversed. -/
def pySplitAux : List Char → List Char → List (List Char)
  | [], acc => if acc = [] then [] else [acc.reverse]
  | c :: cs, acc =>
    if isPyWS c then
      if acc = [] then pySplitAux cs [] else acc.reverse :: pySplitAux cs []
    else pySplitAux cs (c :: acc)

def pySplit (s : String) : List (List Char) := pySplitAux s.data []

/-- A Python value as returned by `validate_user_and_password`: one of the
two length booleans, or the `no_spaces` list of booleans. -/
inductive PyTruthy where
  | bool (b : Bool)
  | boolList (l : List Bool)
deriving DecidableEq

/-- Python truthiness: a list is truthy iff nonempty, regardless of its
elements. -/
def PyTruthy.truthy : PyTruthy → Bool
  | .bool b => b
  | .boolList l => !l.isEmpty

/-- `validate_user_and_password(user_id, password)`.  The list comprehension
for `no_spaces` runs before the `return`, evaluating `user_id.split()[0]`
then `password.split()[0]`, each of which can raise `IndexError`. -/
def validate_user_and_password (user_id password : String) : Except Unit PyTruthy :=
  let good_user_id_len :=
    decide (USER_ID_MIN_LEN ≤ user_id.length ∧ user_id.length ≤ USER_ID_MAX_LEN)
  let good_password_len :=
    decide (PASSWORD_MIN_LEN ≤ password.length ∧ password.length ≤ PASSWORD_MAX_LEN)
  match pySplit user_id with
  | [] => .error ()
  | u0 :: _ =>
    match pySplit password with
    | [] => .error ()
    | p0 :: _ =>
      let no_spaces := [decide (u0 = user_id.data), decide (p0 = password.data)]
      .ok (if good_user_id_len then
            (if good_password_len then .boolList no_spaces else .bool false)
          else .bool false)

/-! ### C2 — oversize field values

`get_request_payload` has no failure path: the f-string `f"{len:>4}"` pads
short numbers but silently emits five or more digits for `len > 9999`.  The
embedding is therefore a total function, and we prove what it actually does
to an oversize field. -/

/-- A concrete oversize field value: 10000 bytes of `"a"`. -/
def bigField : List Nat := List.replicate 10000 97

/-! ### Partial reads — `Command.read` and `ServerMessage.socket_read_bytes`

A socket is modelled as the sequence of chunks that successive `recv` calls
return: `recvs i` is the chunk handed back by the `i`-th call.  A peer that
has closed the connection makes `recv` return `b""` forever.  Each loop is
given explicit fuel; `none` at every fuel means the loop never finishes. -/

/-- `Command.read(socket, count)`: accumulate chunks while
`total_received < count`.  There is no empty-chunk check, so a `recv` that
returns zero bytes leaves `total_received` unchanged. -/
def commandReadAux (recvs : Nat → List Nat) (count : Nat) :
    Nat → Nat → Nat → List Nat → Option (List Nat)
  | 0, _, total, acc => if total < count then none else some acc
  | fuel + 1, i, total, acc =>
    if total < count then
      commandReadAux recvs count fuel (i + 1) (total + (recvs i).length)
        (acc ++ recvs i)
    else some acc

def commandRead (recvs : Nat → List Nat) (count fuel : Nat) : Option (List Nat) :=
  commandReadAux recvs count fuel 0 0 []

/-- `ServerMessage.socket_read_bytes`: the same loop, except that a
zero-length chunk makes the function return `None` (peer disconnect).  The
outer `Option` is the fuel (`none` = still looping); the inner one is the
function's own `None`-vs-bytes result. -/
def socketReadBytesAux (recvs : Nat → List Nat) (count : Nat) :
    Nat → Nat → Nat → List Nat → Option (Option (List Nat))
  | 0, _, total, acc => if total < count then none else some (some acc)
  | fuel + 1, i, total, acc =>
    if total < count then
      if recvs i = [] then some none
      else socketReadBytesAux recvs count fuel (i + 1) (total + (recvs i).length)
        (acc ++ recvs i)
    else some (some acc)

def socketReadBytes (recvs : Nat → List Nat) (count fuel : Nat) :
    Option (Option (List Nat)) :=
  socketReadBytesAux recvs count fuel 0 0 []

/-! ### Server state and per-command execution — `server.py`, `command.py`

Field values here are Lean `String`s (they live in memory on the server).
Sockets are file-descriptor numbers.  `self.server.print` console logging is
outside the model; the messages a command sends to clients are returned as a
list of `(destination socket, message)` pairs in send order.  The on-disk
credential store of `db.py` is modelled, as the spec directs, by the list of
`(user_id, password)` records it holds. -/

/-- A server→client request (`PrintCommand`, `DisconnectCommand`,
`UserIdCommand`). -/
inductive OutMsg where
  | print (message : String)
  | disconnect (message : String)
  | userId (user_id : String)
deriving DecidableEq

/-- `Server` state: the open-connection list, the `current_users` dict
(insertion-ordered association list with unique keys), the credential
store, and the running protocol version. -/
structure ServerState where
  connections : List Nat
  current_users : List (String × Nat)
  db : List (String × String)
  version : Nat
deriving DecidableEq

/-- `Server.get_user_by_socket`: first user whose socket is the given one. -/
def getUserBySocket (cu : List (String × Nat)) (sock : Nat) : Option String :=
  match cu with
  | [] => none
  | (uid, s) :: rest => if s = sock then some uid else getUserBySocket rest sock

/-- `self.current_users[user_id] = socket`: replace in place if the key
exists, else append (Python dict insertion order). -/
def dictSet (cu : List (String × Nat)) (uid : String) (sock : Nat) : List (String × Nat) :=
  match cu with
  | [] => [(uid, sock)]
  | (k, v) :: rest =>
    if k = uid then (uid, sock) :: rest else (k, v) :: dictSet rest uid sock

/-- `self.current_users.get(user_id)`. -/
def dictGet (cu : List (String × Nat)) (uid : String) : Option Nat :=
  match cu with
  | [] => none
  | (k, v) :: rest => if k = uid then some v else dictGet rest uid

/-- `self.current_users.pop(username_to_remove, None)`. -/
def dictPop (cu : List (String × Nat)) (uid : Option String) : List (String × Nat) :=
  match uid with
  | none => cu
  | some u => cu.filter (fun p => p.1 ≠ u)

/-- `db.user_exists`. -/
def user_exists (uid : String) (db : List (String × String)) : Bool :=
  db.any (fun r => r.1 == uid)

/-- `db.user_and_password_exists`. -/
def user_and_password_exists (uid pwd : String) (db : List (String × String)) : Bool :=
  db.any (fun r => r.1 == uid && r.2 == pwd)

/-- `db.insert_new_user_and_password`: check `user_exists`, then append the
record; returns whether it inserted, with the new store contents. -/
def insert_new_user_and_password (uid pwd : String) (db : List (String × String)) :
    Bool × List (String × String) :=
  if user_exists uid db then (false, db) else (true, db ++ [(uid, pwd)])

/-- `Server.broadcast`: one `PrintCommand` to every logged-in user's socket,
in dict order. -/
def broadcast (cu : List (String × Nat)) (message : String) : List (Nat × OutMsg) :=
  cu.map (fun p => (p.2, OutMsg.print message))

/-- `Server.disconnect`: drop the socket from the open-connection list
(`list.remove` removes the first occurrence), pop any user mapped to it, and
— when a user was logged in on it — broadcast a departure notice to the
remaining users. -/
def Server.disconnect (st : ServerState) (sock : Nat) : ServerState × List (Nat × OutMsg) :=
  let user := getUserBySocket st.current_users sock
  let cu := dictPop st.current_users user
  let st' : ServerState :=
    { st with connections := st.connections.erase sock, current_users := cu }
  match user with
  | some u => (st', broadcast cu (u ++ " left"))
  | none => (st', [])

/-- `f"{x}"` for a value that is a `str` or `None`. -/
def pyFormatUser : Option String → String
  | none => "None"
  | some u => u

/-- Python `int(s)` on an in-memory string (used by
`ConnectCommand.execute`): strip surrounding whitespace, then a run of
decimal digits; `none` models the `ValueError` raise. -/
def pyIntOfString (s : String) : Option Nat :=
  let core := (((s.data.dropWhile isPyWS).reverse.dropWhile isPyWS).reverse)
  if !core.isEmpty && core.all (fun c => 48 ≤ c.toNat && c.toNat ≤ 57) then
    some (core.foldl (fun acc c => 10 * acc + (c.toNat - 48)) 0)
  else none

/-- Lowercase a character's code point, ASCII range (models `str.lower` on
the identifiers the protocol carries). -/
def lowerChar (c : Char) : Nat :=
  if 65 ≤ c.toNat ∧ c.toNat ≤ 90 then c.toNat + 32 else c.toNat

/-- The sort key `str.lower` produces, as a list of code points. -/
def lowerKey (s : String) : List Nat := s.data.map lowerChar

/-- Lexicographic `≤` on code-point lists (Python string comparison). -/
def keyLE : List Nat → List Nat → Bool
  | [], _ => true
  | _ :: _, [] => false
  | a :: as, b :: bs => if a < b then true else if a = b then keyLE as bs else false

/-- The comparison `sorted(..., key=str.lower)` sorts by. -/
def userLE (a b : String) : Bool := keyLE (lowerKey a) (lowerKey b)

/-- Stable insertion into a sorted list. -/
def insertSorted (x : String) : List String → List String
  | [] => [x]
  | y :: ys => if userLE x y then x :: y :: ys else y :: insertSorted x ys

/-- `sorted(keys, key=str.lower)`, modelled as a stable insertion sort. -/
def pySorted : List String → List String
  | [] => []
  | x :: xs => insertSorted x (pySorted xs)

/-- `Server.get_all_connected_users`: the logged-in user ids, sorted
case-insensitively. -/
def get_all_connected_users (cu : List (String × Nat)) : List String :=
  pySorted (cu.map Prod.fst)

/-- The six client→server command variants, with their field values. -/
inductive ClientCmd where
  | connect (version : String)
  | login (user_id password : String)
  | newuser (user_id password : String)
  | sendall (message : String)
  | senddirect (user_id message : String)
  | who
deriving DecidableEq

/-- Each command's `validate` method.  `Except` propagates the `IndexError`
that `validate_user_and_password` can raise; the boolean is Python
truthiness of the returned value. -/
def ClientCmd.validate : ClientCmd → Except Unit Bool
  | .connect v => .ok (v == "1" || v == "2")
  | .login u p => (validate_user_and_password u p).map PyTruthy.truthy
  | .newuser u p => (validate_user_and_password u p).map PyTruthy.truthy
  | .sendall m => .ok (decide (1 ≤ m.length ∧ m.length ≤ 256))
  | .senddirect u m =>
    .ok (decide (1 ≤ m.length ∧ m.length ≤ 256) && decide (3 ≤ u.length ∧ u.length ≤ 32))
  | .who => .ok true

/-- Each command's `execute` method against the server state: the new state
and the requests sent, in order.  `none` models an exception escaping
`execute` (only `int(self.version)` in `ConnectCommand` can raise). -/
def ClientCmd.execute (c : ClientCmd) (sock : Nat) (st : ServerState) :
    Option (ServerState × List (Nat × OutMsg)) :=
  match c with
  | .connect v =>
    match pyIntOfString v with
    | none => none
    | some n =>
      if n ≠ st.version then
        let (st', out) := Server.disconnect st sock
        some (st', (sock, OutMsg.disconnect
          ("Server is running version " ++ toString st.version ++
            ". Update client to correct version.")) :: out)
      else some (st, [])
  | .login u p =>
    if user_and_password_exists u p st.db then
      some ({ st with current_users := dictSet st.current_users u sock },
        broadcast st.current_users (u ++ " joins.") ++ [(sock, OutMsg.userId u)])
    else
      some (st, [(sock, OutMsg.print "Denied. User name or password incorrect.")])
  | .newuser u p =>
    let (created, db') := insert_new_user_and_password u p st.db
    some ({ st with db := db' },
      [(sock, OutMsg.print (if created then "New user account created. Please login."
        else "Denied. User account already exists."))])
  | .sendall m =>
    let from_user := getUserBySocket st.current_users sock
    some (st, st.current_users.filterMap (fun p =>
      if st.version = 2 ∧ from_user = some p.1 then none
      else some (p.2, OutMsg.print (pyFormatUser from_user ++ ": " ++ m))))
  | .senddirect u m =>
    let from_user := getUserBySocket st.current_users sock
    match dictGet st.current_users u with
    | some target =>
      some (st, [(target, OutMsg.print (pyFormatUser from_user ++ "= " ++ m))])
    | none => some (st, [(sock, OutMsg.print "That user is not logged in.")])
  | .who =>
    some (st, [(sock, OutMsg.print
      (String.intercalate ", " (get_all_connected_users st.current_users)))])

/-! ### The per-connection read loop — `Server.handle_client`

The loop's input is the connection's incoming traffic as a list of frames,
each already split into its identifier byte and decoded field values (frame
decoding itself is the codec above).  An empty list is `recv(1)` returning
`b""`.  The loop result records whether the connection's teardown
(`self.disconnect`, the line after the loop) ran. -/

/-- `COMMAND_LOOKUP`'s keys: the client→server identifiers `C A N S D W`. -/
def CLIENT_IDS : List Nat := [67, 65, 78, 83, 68, 87]

/-- Rebuild the client→server command a well-formed frame carries. -/
def buildClientCmd (b : Nat) (fs : List String) : Option ClientCmd :=
  match b, fs with
  | 67, [v] => some (.connect v)
  | 65, [u, p] => some (.login u p)
  | 78, [u, p] => some (.newuser u p)
  | 83, [m] => some (.sendall m)
  | 68, [u, m] => some (.senddirect u m)
  | 87, [] => some .who
  | _, _ => none

inductive LoopResult where
  | disconnected
  | crashed
deriving DecidableEq

/-- `Server.handle_client`.  An empty identifier read breaks the loop, after
which `self.disconnect(client_socket)` runs (`.disconnected`).  An
identifier not in `COMMAND_LOOKUP` raises `ValueError`, which the
`except (KeyboardInterrupt, OSError)` clause does not catch: it propagates
out of `handle_client`, the thread dies, and the teardown line never runs
(`.crashed`).  Otherwise the command is built and `execute`d — with no call
to `validate` — and the loop continues. -/
def handle_client (st : ServerState) (sock : Nat) :
    List (Nat × List String) → ServerState × List (Nat × OutMsg) × LoopResult
  | [] =>
    let (st', out) := Server.disconnect st sock
    (st', out, .disconnected)
  | (b, fs) :: rest =>
    if b ∈ CLIENT_IDS then
      match buildClientCmd b fs with
      | some c =>
        match c.execute sock st with
        | some (st', out) =>
          let (st'', out', r) := handle_client st' sock rest
          (st'', out ++ out', r)
        | none => (st, [], .crashed)
      | none => (st, [], .crashed)
    else (st, [], .crashed)

/-! ### The `NewUser` race — `db.insert_new_user_and_password`

`insert_new_user_and_password` is a check-then-append with no lock: the
`user_exists` read and the file append are two separate steps, and two
server threads can interleave them.  One thread's progress is a phase;
a schedule says whose step runs next (`false` = thread 0, `true` =
thread 1). -/

inductive InsPhase where
  | start
  | willWrite
  | done (res : Bool)
deriving DecidableEq

/-- One atomic step of `insert_new_user_and_password`: the existence check,
then the append. -/
def insStep (uid pwd : String) :
    InsPhase × List (String × String) → InsPhase × List (String × String)
  | (.start, db) =>
    if user_exists uid db then (.done false, db) else (.willWrite, db)
  | (.willWrite, db) => (.done true, db ++ [(uid, pwd)])
  | (.done r, db) => (.done r, db)

/-- Run two concurrent `insert_new_user_and_password(uid, pwd)` calls under
a schedule. -/
def runSched (uid pwd : String) :
    List Bool → InsPhase × InsPhase × List (String × String) →
      InsPhase × InsPhase × List (String × String)
  | [], s => s
  | t :: ts, (p₁, p₂, db) =>
    if t then
      let (p₂', db') := insStep uid pwd (p₂, db)
      runSched uid pwd ts (p₁, p₂', db')
    else
      let (p₁', db') := insStep uid pwd (p₁, db)
      runSched uid pwd ts (p₁', p₂, db')

/-! ### Codec lemmas -/

theorem decDigits_ne_nil (n : Nat) : decDigits n ≠ [] := by
  unfold decDigits
  split <;> simp

theorem decDigits_all_digits (n : Nat) : ∀ b ∈ decDigits n, isDigitByte b = true := by
  induction n using Nat.strong_induction_on with
  | _ n ih =>
    unfold decDigits
    split
    · next h =>
      intro b hb
      simp only [List.mem_singleton] at hb
      subst hb
      simp [isDigitByte]
      omega
    · next h =>
      intro b hb
      rcases List.mem_append.mp hb with hb | hb
      · exact ih (n / 10) (Nat.div_lt_self (by omega) (by omega)) b hb
      · simp only [List.mem_singleton] at hb
        subst hb
        simp [isDigitByte]
        omega

theorem digitsVal_append (l : List Nat) (b : Nat) :
    digitsVal (l ++ [b]) = 10 * digitsVal l + (b - 48) := by
  simp [digitsVal, List.foldl_append]

theorem digitsVal_decDigits (n : Nat) : digitsVal (decDigits n) = n := by
  induction n using Nat.strong_induction_on with
  | _ n ih =>
    unfold decDigits
    split
    · next h => simp [digitsVal]
    · next h =>
      rw [digitsVal_append, ih (n / 10) (Nat.div_lt_self (by omega) (by omega))]
      omega

theorem isSpaceByte_of_digit {b : Nat} (h : isDigitByte b = true) : isSpaceByte b = false := by
  simp only [isDigitByte, Bool.and_eq_true, decide_eq_true_eq] at h
  simp [isSpaceByte]
  omega

theorem dropWhile_replicate_space (k : Nat) (l : List Nat) :
    (List.replicate k 32 ++ l).dropWhile isSpaceByte = l.dropWhile isSpaceByte := by
  induction k with
  | zero => simp
  | succ k ih =>
    simp only [List.replicate_succ, List.cons_append, List.dropWhile_cons]
    simp [isSpaceByte, ih]

theorem dropWhile_space_of_digits (l : List Nat) (h : ∀ b ∈ l, isDigitByte b = true) :
    l.dropWhile isSpaceByte = l := by
  cases l with
  | nil => rfl
  | cons b t =>
    simp [List.dropWhile_cons, isSpaceByte_of_digit (h b (by simp))]

theorem parseHeader_padHeader (n : Nat) : parseHeader (padHeader n) = some n := by
  have hd := decDigits_all_digits n
  have hne := decDigits_ne_nil n
  have hrev : (decDigits n).reverse.dropWhile isSpaceByte = (decDigits n).reverse :=
    dropWhile_space_of_digits _ (fun b hb => hd b (List.mem_reverse.mp hb))
  unfold parseHeader padHeader
  rw [dropWhile_replicate_space, dropWhile_space_of_digits _ hd, hrev,
    List.reverse_reverse]
  rw [if_pos]
  · rw [digitsVal_decDigits]
  · simp only [Bool.and_eq_true, Bool.not_eq_true']
    exact ⟨by simpa [List.isEmpty_iff] using hne, List.all_eq_true.mpr hd⟩

theorem decDigits_length_le (k : Nat) : ∀ n, n < 10 ^ (k + 1) → (decDigits n).length ≤ k + 1 := by
  induction k with
  | zero =>
    intro n h
    unfold decDigits
    rw [dif_pos (by simpa using h)]
    simp
  | succ k ih =>
    intro n h
    unfold decDigits
    split
    · simp
    · next hge =>
      have hdiv : n / 10 < 10 ^ (k + 1) := by
        rw [Nat.div_lt_iff_lt_mul (by omega)]
        calc n < 10 ^ (k + 1 + 1) := h
        _ = 10 ^ (k + 1) * 10 := by ring
      have := ih (n / 10) hdiv
      simp only [List.length_append, List.length_singleton]
      omega

theorem decDigits_length_ge (k : Nat) : ∀ n, 10 ^ k ≤ n → k + 1 ≤ (decDigits n).length := by
  induction k with
  | zero =>
    intro n _
    have := decDigits_ne_nil n
    have := List.length_pos.mpr this
    omega
  | succ k ih =>
    intro n h
    have hpow : (10 : Nat) ≤ 10 ^ (k + 1) := by
      calc (10 : Nat) = 10 ^ 1 := by norm_num
      _ ≤ 10 ^ (k + 1) := Nat.pow_le_pow_right (by omega) (by omega)
    unfold decDigits
    rw [dif_neg (by omega)]
    have hdiv : 10 ^ k ≤ n / 10 := by
      rw [Nat.le_div_iff_mul_le (by omega)]
      calc 10 ^ k * 10 = 10 ^ (k + 1) := by ring
      _ ≤ n := h
    have := ih (n / 10) hdiv
    simp only [List.length_append, List.length_singleton]
    omega

theorem padHeader_length {n : Nat} (h : n ≤ 9999) : (padHeader n).length = 4 := by
  have h4 : (10 : Nat) ^ (3 + 1) = 10000 := by norm_num
  have := decDigits_length_le 3 n (by omega)
  simp only [padHeader, HEADER_WIDTH, List.length_append, List.length_replicate]
  omega

theorem padHeader_length_gt {n : Nat} (h : 9999 < n) : 4 < (padHeader n).length := by
  have h4 : (10 : Nat) ^ 4 = 10000 := by norm_num
  have := decDigits_length_ge 4 n (by omega)
  simp only [padHeader, HEADER_WIDTH, List.length_append, List.length_replicate]
  omega

theorem decodeValues_encode (fields : List (List Nat)) (rest : List Nat) :
    decodeValues (fields.map fun v => padHeader v.length) (fields.flatten ++ rest) =
      some (fields, rest) := by
  induction fields generalizing rest with
  | nil => simp [decodeValues]
  | cons f fs ih =>
    simp only [List.map_cons, List.flatten_cons, List.append_assoc]
    rw [decodeValues, parseHeader_padHeader]
    simp only [Option.bind_eq_bind, Option.some_bind]
    rw [if_pos (by simp)]
    rw [List.take_left, List.drop_left, ih]
    rfl

theorem headerSlices_encode (lens : List Nat) (h : ∀ x ∈ lens, (padHeader x).length = 4) :
    headerSlices lens.length (lens.map padHeader).flatten = lens.map padHeader := by
  induction lens with
  | nil => simp [headerSlices]
  | cons a as ih =>
    have ha : (padHeader a).length = 4 := h a (by simp)
    have hstep : ∀ i : Nat,
        ((padHeader a ++ (as.map padHeader).flatten).drop (HEADER_WIDTH * Nat.succ i)).take
            HEADER_WIDTH =
          (((as.map padHeader).flatten).drop (HEADER_WIDTH * i)).take HEADER_WIDTH := by
      intro i
      have harith : HEADER_WIDTH * Nat.succ i = (padHeader a).length + HEADER_WIDTH * i := by
        rw [ha]
        simp only [HEADER_WIDTH]
        omega
      rw [harith, List.drop_append]
    have hhead :
        ((padHeader a ++ (as.map padHeader).flatten).drop (HEADER_WIDTH * 0)).take HEADER_WIDTH =
          padHeader a := by
      simp only [Nat.mul_zero, List.drop_zero]
      exact List.take_left' ha
    have htail :
        (List.range as.length).map
            ((fun i =>
              ((padHeader a ++ (as.map padHeader).flatten).drop (HEADER_WIDTH * i)).take
                HEADER_WIDTH) ∘ Nat.succ) =
          as.map padHeader := by
      calc (List.range as.length).map
            ((fun i =>
              ((padHeader a ++ (as.map padHeader).flatten).drop (HEADER_WIDTH * i)).take
                HEADER_WIDTH) ∘ Nat.succ)
          = (List.range as.length).map
            (fun i => (((as.map padHeader).flatten).drop (HEADER_WIDTH * i)).take HEADER_WIDTH) :=
            List.map_congr_left (fun i _ => hstep i)
        _ = as.map padHeader := by
            have := ih (fun x hx => h x (by simp [hx]))
            simpa [headerSlices] using this
    simp only [headerSlices, List.map_cons, List.flatten_cons, List.length_cons,
      List.range_succ_eq_map, List.map_map]
    rw [hhead, htail]

theorem encodeFields_header_length (fields : List (List Nat))
    (h : ∀ f ∈ fields, f.length ≤ 9999) :
    ((fields.map fun v => padHeader v.length).flatten).length = HEADER_WIDTH * fields.length := by
  induction fields with
  | nil => simp
  | cons f fs ih =>
    simp only [List.map_cons, List.flatten_cons, List.length_append, List.length_cons]
    rw [padHeader_length (h f (by simp)), ih (fun x hx => h x (by simp [hx]))]
    simp [HEADER_WIDTH]
    ring

theorem decodeFields_encodeFields (fields : List (List Nat))
    (h : ∀ f ∈ fields, f.length ≤ 9999) :
    decodeFields fields.length (encodeFields fields) = some (fields, []) := by
  have hlen := encodeFields_header_length fields h
  unfold decodeFields encodeFields
  rw [if_pos (by simp only [List.length_append]; omega)]
  rw [List.take_left' hlen, List.drop_left' hlen]
  have hmap : fields.map (fun v => padHeader v.length) = (fields.map List.length).map padHeader := by
    simp [List.map_map]
  have hslices :
      headerSlices fields.length ((fields.map fun v => padHeader v.length)).flatten =
        fields.map fun v => padHeader v.length := by
    have := headerSlices_encode (fields.map List.length)
      (fun x hx => by
        obtain ⟨f, hf, rfl⟩ := List.mem_map.mp hx
        exact padHeader_length (h f hf))
    rw [hmap]
    simpa using this
  rw [hslices]
  have := decodeValues_encode fields []
  simpa using this

/-- **C1.** Round-trip: for every command variant and all field values whose
byte length is at most 9999, decoding the payload produced by
`Command.get_request_payload` (consuming the identifier byte, then running
`Command.from_socket` of the class it selects) yields the original command. -/
theorem c1_decode_encode_roundtrip (c : Cmd) (h : ∀ f ∈ c.fieldList, f.length ≤ 9999) :
    decodeCommand (getRequestPayload c) = some c := by
  have hk : keysOf c.idByte = some c.fieldList.length := by cases c <;> rfl
  have hmk : mkCmd c.idByte c.fieldList = some c := by cases c <;> rfl
  simp only [decodeCommand, getRequestPayload, hk, Option.bind_eq_bind, Option.some_bind]
  rw [decodeFields_encodeFields _ h]
  simpa using hmk

/-- Witness for C1 at `LoginCommand(user_id="abc", password="pw12")`. -/
theorem c1_decode_encode_roundtrip_witness :
    (∀ f ∈ (Cmd.login [97, 98, 99] [112, 119, 49, 50]).fieldList, f.length ≤ 9999) ∧
      decodeCommand (getRequestPayload (Cmd.login [97, 98, 99] [112, 119, 49, 50])) =
        some (Cmd.login [97, 98, 99] [112, 119, 49, 50]) :=
  ⟨by decide, c1_decode_encode_roundtrip _ (by decide)⟩

theorem bigField_length : bigField.length = 10000 := by
  rw [bigField, List.length_replicate]

/-- **C2 counterexample.** For the concrete `SendAllCommand` whose message is
10000 bytes of `"a"`, `get_request_payload` does not fail: it returns the
complete frame `"S" ++ "10000" ++ message`, whose length header is wider than
the declared 4 bytes yet still parses back to 10000 — so the claim that
encoding fails with a protocol error is false on the code. -/
theorem c2_counterexample :
    getRequestPayload (Cmd.sendall bigField) = 83 :: (padHeader 10000 ++ bigField) ∧
    4 < (padHeader 10000).length ∧
    parseHeader (padHeader 10000) = some 10000 := by
  refine ⟨?_, padHeader_length_gt (by omega), parseHeader_padHeader 10000⟩
  have h1 : getRequestPayload (Cmd.sendall bigField) =
      83 :: ((padHeader bigField.length ++ []) ++ (bigField ++ [])) := rfl
  rw [h1, bigField_length, List.append_nil, List.append_nil]

/-- **C2 (amended).** For every command and every field value whose byte
length exceeds 9999, `get_request_payload` does not fail: the emitted header
for that field is wider than 4 bytes, it still parses back to the exact
length (the length is not wrapped into 4 bytes), and the full value appears
untruncated, contiguously, in the payload. -/
theorem c2_oversize_encoding_succeeds (c : Cmd) (f : List Nat) (hf : f ∈ c.fieldList)
    (h : 9999 < f.length) :
    4 < (padHeader f.length).length ∧
    parseHeader (padHeader f.length) = some f.length ∧
    f <:+: getRequestPayload c := by
  refine ⟨padHeader_length_gt h, parseHeader_padHeader _, ?_⟩
  have hbody : f <:+: c.fieldList.flatten := List.infix_of_mem_flatten hf
  have hsuffix : c.fieldList.flatten <:+:
      (c.idByte :: (c.fieldList.map fun v => padHeader v.length).flatten) ++
        c.fieldList.flatten :=
    List.IsSuffix.isInfix (List.suffix_append _ _)
  have : getRequestPayload c =
      (c.idByte :: (c.fieldList.map fun v => padHeader v.length).flatten) ++
        c.fieldList.flatten := rfl
  rw [this]
  exact hbody.trans hsuffix

/-- Witness for the amended C2 at a 10000-byte message. -/
theorem c2_oversize_encoding_succeeds_witness :
    (bigField ∈ (Cmd.sendall bigField).fieldList ∧ 9999 < bigField.length) ∧
    (4 < (padHeader bigField.length).length ∧
      parseHeader (padHeader bigField.length) = some bigField.length ∧
      bigField <:+: getRequestPayload (Cmd.sendall bigField)) :=
  ⟨⟨List.mem_singleton.mpr rfl, by rw [bigField_length]; omega⟩,
    c2_oversize_encoding_succeeds _ _ (List.mem_singleton.mpr rfl)
      (by rw [bigField_length]; omega)⟩

/-- **C3 evaluation at the failing input.** `validate_user_and_password
("ab cd", "pass1")`: both length checks pass, the embedded space makes the
first `no_spaces` entry `False`, yet the function returns the two-element
list itself, which is truthy — the pair is *accepted*, contradicting the
claim (and the command help text) that whitespace is rejected. -/
theorem c3_whitespace_not_rejected :
    validate_user_and_password "ab cd" "pass1" = .ok (.boolList [false, true]) ∧
      PyTruthy.truthy (.boolList [false, true]) = true := by
  constructor
  · rfl
  · rfl

theorem pySplitAux_all_ws {l : List Char} (h : ∀ c ∈ l, isPyWS c = true) :
    pySplitAux l [] = [] := by
  induction l with
  | nil => rfl
  | cons c cs ih =>
    simp only [pySplitAux, h c (by simp), if_true, if_pos rfl]
    exact ih (fun x hx => h x (by simp [hx]))

/-- **C10.** For any pair in which the user id or the password is empty or
consists entirely of whitespace, `validate_user_and_password` raises
`IndexError` (from `item.split()[0]`) instead of returning a value: the
function is not total. -/
theorem c10_validate_raises_on_blank (u p : String)
    (h : (∀ c ∈ u.data, isPyWS c = true) ∨ (∀ c ∈ p.data, isPyWS c = true)) :
    validate_user_and_password u p = .error () := by
  rcases h with h | h
  · unfold validate_user_and_password pySplit
    rw [pySplitAux_all_ws h]
  · unfold validate_user_and_password pySplit
    rw [pySplitAux_all_ws h]
    cases hsplit : pySplitAux u.data [] with
    | nil => rfl
    | cons u0 rest => rfl

/-- Witness for C10: the all-spaces user id `"   "` (with a well-formed
password) raises. -/
theorem c10_validate_raises_on_blank_witness :
    ((∀ c ∈ "   ".data, isPyWS c = true) ∨ (∀ c ∈ "pass".data, isPyWS c = true)) ∧
      validate_user_and_password "   " "pass" = .error () :=
  ⟨Or.inl (by decide), c10_validate_raises_on_blank "   " "pass" (Or.inl (by decide))⟩

/-! ### C4 — partial reads and the zero-length chunk -/

theorem commandReadAux_closed (fuel : Nat) :
    ∀ i acc, commandReadAux (fun _ => []) 1 fuel i 0 acc = none := by
  induction fuel with
  | zero =>
    intro i acc
    simp [commandReadAux]
  | succ fuel ih =>
    intro i acc
    simp only [commandReadAux, List.length_nil, Nat.add_zero, List.append_nil,
      Nat.zero_lt_one, if_true]
    exact ih (i + 1) acc

/-- **C4 evaluation at the failing input.** On a socket whose peer has
closed the connection (every `recv` returns `b""`), `Command.read(socket, 1)`
never terminates — the loop makes no progress at any fuel — whereas
`ServerMessage.socket_read_bytes` on the same socket immediately returns the
`None` connection-closed signal.  `Command.read` therefore does not satisfy
the claim: it neither terminates nor propagates a connection-closed signal. -/
theorem c4_command_read_loops_forever :
    (∀ fuel, commandRead (fun _ => []) 1 fuel = none) ∧
      socketReadBytes (fun _ => []) 1 1 = some none := by
  exact ⟨fun fuel => commandReadAux_closed fuel 0 [], rfl⟩

/-! ### C5 — unrecognized identifier byte -/

/-- **C5 evaluation at the failing input.** When the next frame's identifier
byte is not in `COMMAND_LOOKUP`, `handle_client` exits by an uncaught
`ValueError`: the loop terminates, but the server state is returned
unchanged and `Server.disconnect` never runs — the connection is not removed
from the open-connection set, contradicting the claim's teardown part. -/
theorem c5_unrecognized_id_skips_teardown (st : ServerState) (sock b : Nat)
    (fs : List String) (rest : List (Nat × List String)) (hb : b ∉ CLIENT_IDS) :
    handle_client st sock ((b, fs) :: rest) = (st, [], .crashed) := by
  simp [handle_client, hb]

/-- Witness for C5: identifier byte `Z` (90) on a server with one open
connection. -/
theorem c5_unrecognized_id_skips_teardown_witness :
    (90 : Nat) ∉ CLIENT_IDS ∧
      handle_client ⟨[7], [], [], 2⟩ 7 [(90, [])] =
        (⟨[7], [], [], 2⟩, [], .crashed) :=
  ⟨by decide, c5_unrecognized_id_skips_teardown _ _ _ _ _ (by decide)⟩

/-! ### C6 — the server does not validate before executing -/

/-- **C6 counterexample.** `NewUserCommand(user_id="ab", password="pass1")`
fails its own validation (`user_id` has length 2), yet when the server
receives it, the account is created: the credential store changes from `[]`
to `[("ab", "pass1")]` and a success report is sent.  The dispatch path runs
`execute` with no `validate` check, so the claim is false on the code. -/
theorem c6_counterexample :
    ClientCmd.validate (.newuser "ab" "pass1") = .ok false ∧
      handle_client ⟨[7], [], [], 2⟩ 7 [(78, ["ab", "pass1"])] =
        (⟨[], [], [("ab", "pass1")], 2⟩,
          [(7, OutMsg.print "New user account created. Please login.")],
          .disconnected) := by
  exact ⟨rfl, rfl⟩

/-- **C6 (amended).** The server's dispatch path never calls `validate`: a
well-formed frame whose command fails its own validation is executed anyway,
its state change and replies taking effect exactly as `execute` dictates. -/
theorem c6_server_executes_invalid_commands (st : ServerState) (sock b : Nat)
    (fs : List String) (rest : List (Nat × List String)) (c : ClientCmd)
    (st' : ServerState) (out : List (Nat × OutMsg))
    (hb : b ∈ CLIENT_IDS) (hc : buildClientCmd b fs = some c)
    (_hv : ClientCmd.validate c = .ok false)
    (hx : ClientCmd.execute c sock st = some (st', out)) :
    handle_client st sock ((b, fs) :: rest) =
      ((handle_client st' sock rest).1,
        out ++ (handle_client st' sock rest).2.1,
        (handle_client st' sock rest).2.2) := by
  rcases hrec : handle_client st' sock rest with ⟨st'', out', r⟩
  simp [handle_client, hb, hc, hx, hrec]

/-- Witness for the amended C6: the invalid `NewUser("ab", "pass1")` frame
on an empty store. -/
theorem c6_server_executes_invalid_commands_witness :
    ((78 : Nat) ∈ CLIENT_IDS ∧
      buildClientCmd 78 ["ab", "pass1"] = some (.newuser "ab" "pass1") ∧
      ClientCmd.validate (.newuser "ab" "pass1") = .ok false ∧
      ClientCmd.execute (.newuser "ab" "pass1") 7 ⟨[7], [], [], 2⟩ =
        some (⟨[7], [], [("ab", "pass1")], 2⟩,
          [(7, OutMsg.print "New user account created. Please login.")])) ∧
    handle_client ⟨[7], [], [], 2⟩ 7 [(78, ["ab", "pass1"])] =
      ((handle_client ⟨[7], [], [("ab", "pass1")], 2⟩ 7 []).1,
        [(7, OutMsg.print "New user account created. Please login.")] ++
          (handle_client ⟨[7], [], [("ab", "pass1")], 2⟩ 7 []).2.1,
        (handle_client ⟨[7], [], [("ab", "pass1")], 2⟩ 7 []).2.2) :=
  ⟨⟨by decide, rfl, rfl, rfl⟩,
    c6_server_executes_invalid_commands _ _ _ _ _ _ _ _ (by decide) rfl rfl rfl⟩

/-! ### C7 — `SendDirect` routing -/

/-- **C7.** For a sender logged in as `su`, executing
`SendDirect(uid, msg)`: when `uid` is in the logged-in map, exactly one
`Print` annotated with the sender's identifier is sent, to the target's
socket only; when `uid` is not logged in, exactly one failure notice is
sent, to the sender's socket only.  No other socket receives anything, and
the server state is unchanged. -/
theorem c7_senddirect_routing (st : ServerState) (sock : Nat) (uid msg su : String)
    (hs : getUserBySocket st.current_users sock = some su) :
    (∀ target, dictGet st.current_users uid = some target →
      ClientCmd.execute (.senddirect uid msg) sock st =
        some (st, [(target, OutMsg.print (su ++ "= " ++ msg))])) ∧
    (dictGet st.current_users uid = none →
      ClientCmd.execute (.senddirect uid msg) sock st =
        some (st, [(sock, OutMsg.print "That user is not logged in.")])) := by
  constructor
  · intro target ht
    simp [ClientCmd.execute, hs, ht, pyFormatUser]
  · intro ht
    simp [ClientCmd.execute, hs, ht]

/-- Witness for C7: `alice` (socket 1) direct-messages `bob` (socket 2). -/
theorem c7_senddirect_routing_witness :
    getUserBySocket [("alice", 1), ("bob", 2)] 1 = some "alice" ∧
      dictGet [("alice", 1), ("bob", 2)] "bob" = some 2 ∧
      ClientCmd.execute (.senddirect "bob" "hi") 1
          ⟨[1, 2], [("alice", 1), ("bob", 2)], [], 2⟩ =
        some (⟨[1, 2], [("alice", 1), ("bob", 2)], [], 2⟩,
          [(2, OutMsg.print ("alice" ++ "= " ++ "hi"))]) :=
  ⟨by decide, by decide,
    (c7_senddirect_routing ⟨[1, 2], [("alice", 1), ("bob", 2)], [], 2⟩ 1 "bob" "hi" "alice"
      (by decide)).1 2 (by decide)⟩

/-! ### C8 — `Who` rendering -/

theorem keyLE_total (a b : List Nat) : keyLE a b = true ∨ keyLE b a = true := by
  induction a generalizing b with
  | nil => exact Or.inl rfl
  | cons x xs ih =>
    cases b with
    | nil => exact Or.inr rfl
    | cons y ys =>
      by_cases hxy : x < y
      · exact Or.inl (by simp [keyLE, hxy])
      · by_cases hyx : y < x
        · exact Or.inr (by simp [keyLE, hyx])
        · have hxyeq : x = y := by omega
          subst hxyeq
          rcases ih ys with h | h
          · exact Or.inl (by simp [keyLE, h])
          · exact Or.inr (by simp [keyLE, h])

theorem keyLE_trans : ∀ {a b c : List Nat},
    keyLE a b = true → keyLE b c = true → keyLE a c = true := by
  intro a
  induction a with
  | nil => intro b c _ _; rfl
  | cons x xs ih =>
    intro b c hab hbc
    cases b with
    | nil => simp [keyLE] at hab
    | cons y ys =>
      cases c with
      | nil => simp [keyLE] at hbc
      | cons z zs =>
        simp only [keyLE] at hab hbc ⊢
        by_cases hxy : x < y
        · by_cases hyz : y < z
          · simp [show x < z by omega]
          · by_cases hyzeq : y = z
            · subst hyzeq
              simp [hxy]
            · simp [hyz, hyzeq] at hbc
        · by_cases hxyeq : x = y
          · subst hxyeq
            simp only [if_neg hxy, if_pos rfl] at hab
            by_cases hyz : x < z
            · simp [hyz]
            · by_cases hyzeq : x = z
              · subst hyzeq
                simp only [if_neg hyz, if_pos rfl] at hbc ⊢
                exact ih hab hbc
              · simp [hyz, hyzeq] at hbc
          · simp [hxy, hxyeq] at hab

theorem userLE_total (a b : String) : userLE a b = true ∨ userLE b a = true :=
  keyLE_total (lowerKey a) (lowerKey b)

theorem userLE_trans {a b c : String} (hab : userLE a b = true) (hbc : userLE b c = true) :
    userLE a c = true :=
  keyLE_trans hab hbc

theorem insertSorted_perm (x : String) (l : List String) :
    List.Perm (insertSorted x l) (x :: l) := by
  induction l with
  | nil => exact List.Perm.refl _
  | cons y ys ih =>
    unfold insertSorted
    by_cases h : userLE x y = true
    · rw [if_pos h]
    · rw [if_neg h]
      exact (ih.cons y).trans (List.Perm.swap x y ys)

theorem insertSorted_pairwise {x : String} {l : List String}
    (hl : l.Pairwise (fun a b => userLE a b = true)) :
    (insertSorted x l).Pairwise (fun a b => userLE a b = true) := by
  induction l with
  | nil => simp [insertSorted]
  | cons y ys ih =>
    rcases List.pairwise_cons.mp hl with ⟨hy, hys⟩
    unfold insertSorted
    by_cases h : userLE x y = true
    · rw [if_pos h]
      refine List.pairwise_cons.mpr ⟨?_, hl⟩
      intro b hb
      rcases List.mem_cons.mp hb with rfl | hb
      · exact h
      · exact userLE_trans h (hy b hb)
    · rw [if_neg h]
      refine List.pairwise_cons.mpr ⟨?_, ih hys⟩
      intro b hb
      have hmem : b = x ∨ b ∈ ys := by
        have := (insertSorted_perm x ys).mem_iff.mp hb
        simpa using this
      rcases hmem with rfl | hbys
      · rcases userLE_total b y with htot | htot
        · exact absurd htot h
        · exact htot
      · exact hy b hbys

theorem pySorted_perm (l : List String) : List.Perm (pySorted l) l := by
  induction l with
  | nil => exact List.Perm.refl _
  | cons x xs ih => exact (insertSorted_perm x (pySorted xs)).trans (ih.cons x)

theorem pySorted_pairwise (l : List String) :
    (pySorted l).Pairwise (fun a b => userLE a b = true) := by
  induction l with
  | nil => exact List.Pairwise.nil
  | cons x xs ih => exact insertSorted_pairwise ih

/-- **C8 counterexample.** With `alice` (socket 1) and `bob` (socket 2)
logged in, `Who` renders the identical text `"alice, bob"` no matter which
of the two connections requests it: the rendering contains no mark at all
for the requester's own entry, so the requester's entry is not
distinguishable in the rendered text, contradicting that part of the
claim. -/
theorem c8_counterexample :
    ClientCmd.execute .who 1 ⟨[1, 2], [("alice", 1), ("bob", 2)], [], 2⟩ =
      some (⟨[1, 2], [("alice", 1), ("bob", 2)], [], 2⟩,
        [(1, OutMsg.print "alice, bob")]) ∧
    ClientCmd.execute .who 2 ⟨[1, 2], [("alice", 1), ("bob", 2)], [], 2⟩ =
      some (⟨[1, 2], [("alice", 1), ("bob", 2)], [], 2⟩,
        [(2, OutMsg.print "alice, bob")]) := by
  exact ⟨rfl, rfl⟩

/-- **C8 (amended).** Executing `Who` sends exactly one `Print` to the
requester's socket, whose text renders exactly the currently logged-in user
identifiers — a permutation of the session table's keys, sorted
case-insensitively — joined by `", "`; the text does not depend on the
requester, so no entry is marked as the requester's own. -/
theorem c8_who_sorted_no_marking (st : ServerState) (sock : Nat) :
    ClientCmd.execute .who sock st =
      some (st, [(sock, OutMsg.print
        (String.intercalate ", " (get_all_connected_users st.current_users)))]) ∧
    List.Perm (get_all_connected_users st.current_users)
      (st.current_users.map Prod.fst) ∧
    (get_all_connected_users st.current_users).Pairwise
      (fun a b => userLE a b = true) := by
  refine ⟨rfl, ?_, ?_⟩
  · exact pySorted_perm _
  · exact pySorted_pairwise _

/-! ### C9 — the `NewUser` check-then-append race -/

/-- **C9 counterexample.** The interleaving in which both threads run their
`user_exists` check before either appends: both calls return `True` and the
store ends with the record twice — the two inserts are not an atomic unit,
refuting the claim on the reference code. -/
theorem c9_counterexample :
    runSched "alice" "pw" [false, true, false, true] (.start, .start, []) =
      (.done true, .done true, [("alice", "pw"), ("alice", "pw")]) := by
  rfl

/-- **C9 (amended).** When the two `insert_new_user_and_password` calls for
a fresh `user_id` run serially (all steps of one before the other), exactly
one succeeds: the first returns `True` and appends the record, the second
finds the user and returns `False`.  Only non-serial interleavings (both
checks before both writes) let both succeed. -/
theorem c9_serial_exactly_one (uid pwd : String) (db : List (String × String))
    (h : user_exists uid db = false) :
    runSched uid pwd [false, false, true, true] (.start, .start, db) =
      (.done true, .done false, db ++ [(uid, pwd)]) := by
  have hex : user_exists uid (db ++ [(uid, pwd)]) = true := by
    simp [user_exists]
  simp [runSched, insStep, h, hex]

/-- Witness for the amended C9 at `alice` on an empty store. -/
theorem c9_serial_exactly_one_witness :
    user_exists "alice" [] = false ∧
      runSched "alice" "pw" [false, false, true, true] (.start, .start, []) =
        (.done true, .done false, [("alice", "pw")]) :=
  ⟨rfl, c9_serial_exactly_one "alice" "pw" [] rfl⟩

end GroupChat
